import Mathlib

/-!
Shallow embedding of the pycertifspec client library (wire codec, discovery,
demultiplexer state, subscription table, console accumulator, Var decoding,
Motor moves), with theorems checking the specification's claims against it.

Machine integers are modelled as `Nat`/`Int` with explicit `% 2^32` where the
Python `struct` formats "I"/"i" force 32-bit behaviour; byte strings are
`List Nat` with each entry a byte value.
-/

namespace PyCertifSpec

/-! ## Byte-level helpers (struct.pack/unpack "I" and "i", native little-endian) -/

/-- Little-endian 4-byte encoding of an unsigned 32-bit value (`struct.pack "I"`). -/
def toB4 (n : Nat) : List Nat :=
  [n % 256, n / 256 % 256, n / 256 ^ 2 % 256, n / 256 ^ 3 % 256]

/-- Two's-complement 4-byte encoding of a signed 32-bit value (`struct.pack "i"`). -/
def toB4i (x : Int) : List Nat :=
  toB4 (x % (4294967296 : Int)).toNat

/-- Read an unsigned 32-bit little-endian value from the front of a byte list
(`struct.unpack "I"`); missing bytes read as 0. -/
def readU32 (l : List Nat) : Nat :=
  l.getD 0 0 + 256 * (l.getD 1 0 + 256 * (l.getD 2 0 + 256 * l.getD 3 0))

/-- Read a signed 32-bit little-endian value (`struct.unpack "i"`). -/
def readI32 (l : List Nat) : Int :=
  let u := readU32 l
  if u < 2 ^ 31 then (u : Int) else (u : Int) - 2 ^ 32

/-- Python `str.rstrip('\x00')` / trailing-NUL strip on a byte or char list. -/
def rstripNul (l : List Nat) : List Nat :=
  (l.reverse.dropWhile (· = 0)).reverse

/-! ## DataTypes (src/pycertifspec/DataTypes.py) -/

namespace DataTypes

def SV_DOUBLE : Int := 1
def SV_STRING : Int := 2
def SV_ERROR : Int := 3
def SV_ASSOC : Int := 4
def SV_ARR_DOUBLE : Int := 5
def SV_ARR_FLOAT : Int := 6
def SV_ARR_LONG : Int := 7
def SV_ARR_ULONG : Int := 8
def SV_ARR_SHORT : Int := 9
def SV_ARR_USHORT : Int := 10
def SV_ARR_CHAR : Int := 11
def SV_ARR_UCHAR : Int := 12
def SV_ARR_STRING : Int := 13
def SV_ARR_LONG64 : Int := 14
def SV_ARR_ULONG64 : Int := 15

/-- Byte width of the numpy dtype `DataTypes.NP_TYPES` assigns to each numeric
array type tag (`np.double` 8, `np.single` 4, `np.int32`/`np.uint32` 4,
`np.int16`/`np.uint16` 2, `np.byte`/`np.ubyte` 1, `np.int64`/`np.uint64` 8). -/
def itemSize (t : Int) : Option Nat :=
  if t = SV_DOUBLE then some 8
  else if t = SV_ARR_DOUBLE then some 8
  else if t = SV_ARR_FLOAT then some 4
  else if t = SV_ARR_LONG then some 4
  else if t = SV_ARR_ULONG then some 4
  else if t = SV_ARR_SHORT then some 2
  else if t = SV_ARR_USHORT then some 2
  else if t = SV_ARR_CHAR then some 1
  else if t = SV_ARR_UCHAR then some 1
  else if t = SV_ARR_LONG64 then some 8
  else if t = SV_ARR_ULONG64 then some 8
  else none

end DataTypes

/-! ## EventTypes -/

/-! Modelled from the spec: `EventTypes.py` is imported throughout the package
but is not among the provided source files.  The spec (§3) enumerates the
command codes (HELLO, HELLO_REPLY, REGISTER, UNREGISTER, EVENT, FUNC,
FUNC_WITH_RETURN, CHAN_READ, CHAN_SEND, ABORT, …); only their identity and
distinctness matter to the claims, so they are given the protocol's
documented numeric values. -/
namespace EventTypes

/-- Modelled from the spec: command code enumeration, see the namespace header. -/
def SV_CLOSE : Int := 1
def SV_ABORT : Int := 2
def SV_REGISTER : Int := 6
def SV_UNREGISTER : Int := 7
def SV_EVENT : Int := 8
def SV_FUNC : Int := 9
def SV_FUNC_WITH_RETURN : Int := 10
def SV_CHAN_READ : Int := 11
def SV_CHAN_SEND : Int := 12
def SV_REPLY : Int := 13
def SV_HELLO : Int := 14
def SV_HELLO_REPLY : Int := 15

end EventTypes

/-! ## SpecSocket (src/pycertifspec/SpecSocket.py) -/

def SV_VERSION : Int := 4
def SV_NAME_LEN : Nat := 80
def SV_SPEC_MAGIC : Nat := 4277009102

/-- Body of a decoded message: a UTF-8/NUL-stripped string when the type tag is
`SV_STRING`, raw bytes otherwise.  ASCII byte lists stand in for Python
strings. -/
inductive BodyVal where
  | str (chars : List Nat)
  | raw (bytes : List Nat)
deriving DecidableEq, Repr

/-- The `SpecMessage` namedtuple of SpecSocket.py. -/
structure SpecMessage where
  magic : Nat
  vers : Int
  size : Nat
  sn : Nat
  sec : Nat
  usec : Nat
  cmd : Int
  type : Int
  rows : Nat
  cols : Nat
  len : Nat
  err : Int
  flags : Int
  name : List Nat
  body : BodyVal
deriving DecidableEq, Repr

/-- The 80-byte name field: `property_name` ASCII-encoded, truncated to 80
bytes and zero-padded (`struct.pack "80s"`). -/
def padName80 (name : List Nat) : List Nat :=
  let t := name.take SV_NAME_LEN
  t ++ List.replicate (SV_NAME_LEN - t.length) 0

/-- The header bytes following the 12-byte (magic, version, size) prefix, in
the order of `struct.pack "IiIIIIiiIIIii80s"`: serial number, the two time
fields, command, data type, rows, cols, body length, error, flags, and the
80-byte name field. -/
def specHead2 (serial_number : Nat) (command data_type : Int)
    (property_name : List Nat) (blen : Nat) (error flags : Int)
    (rows cols sec usec : Nat) : List Nat :=
  toB4 serial_number ++ toB4 sec ++ toB4 usec ++
  toB4i command ++ toB4i data_type ++
  toB4 rows ++ toB4 cols ++ toB4 blen ++
  toB4i error ++ toB4i flags ++
  padName80 property_name

/-- `SpecSocket.send_spec`: pack the 132-byte header
(`struct.pack "IiIIIIiiIIIii80s"`) followed by the body.  The two time fields
are explicit parameters standing for the `time.time()` reads. -/
def send_spec (serial_number : Nat) (command data_type : Int)
    (property_name : List Nat) (body : List Nat) (error : Int) (flags : Int)
    (rows cols : Nat) (sec usec : Nat) : List Nat :=
  toB4 SV_SPEC_MAGIC ++ toB4i SV_VERSION ++ toB4 132 ++
  specHead2 serial_number command data_type property_name body.length
    error flags rows cols sec usec ++ body

/-- `SpecSocket.recv_spec`: read the 12-byte prefix (magic, version, size),
check magic and version, read the remaining `size - 12` header bytes and
unpack `"IIIiiIIIii{size-132}x80s"`, strip trailing NULs from the name, then
read `len` body bytes and decode strings.  Exceptions are modelled as
`Except.error`. -/
def recv_spec (stream : List Nat) : Except String SpecMessage :=
  if stream.length < 12 then .error "connection closed"
  else
    let magic := readU32 stream
    let vers := readI32 (stream.drop 4)
    let size := readU32 (stream.drop 8)
    if magic ≠ SV_SPEC_MAGIC then
      .error "ProtocolError: wrong SPEC magic number"
    else if vers < 4 then
      .error "ProtocolError: protocol version below 4"
    else if size < 132 then .error "struct.error"
    else
      let head2 := (stream.drop 12).take (size - 12)
      if head2.length < size - 12 then .error "connection closed"
      else
        let blen := readU32 (head2.drop 28)
        let dtype := readI32 (head2.drop 16)
        let rest := stream.drop size
        if rest.length < blen then .error "connection closed"
        else
          let bodyBytes := rest.take blen
          .ok {
            magic := magic
            vers := vers
            size := size
            sn := readU32 head2
            sec := readU32 (head2.drop 4)
            usec := readU32 (head2.drop 8)
            cmd := readI32 (head2.drop 12)
            type := dtype
            rows := readU32 (head2.drop 20)
            cols := readU32 (head2.drop 24)
            len := blen
            err := readI32 (head2.drop 32)
            flags := readI32 (head2.drop 36)
            name := rstripNul ((head2.drop (40 + (size - 132))).take 80)
            body := if dtype = DataTypes.SV_STRING then
                      BodyVal.str (rstripNul bodyBytes)
                    else BodyVal.raw bodyBytes }

/-- `Client._listen`: the Client's own frame decoder.  It reads the same
12-byte prefix and raises only when the version is below 4 — it performs no
magic-number check — then unpacks `"IIIiiIIIii80s{size-132}x"` (name before
the pad, so the name starts at offset 40 of the second header read) and reads
the body exactly as `recv_spec` does. -/
def listen (stream : List Nat) : Except String SpecMessage :=
  if stream.length < 12 then .error "connection closed"
  else
    let magic := readU32 stream
    let vers := readI32 (stream.drop 4)
    let size := readU32 (stream.drop 8)
    if vers < 4 then
      .error "protocol version below 4"
    else if size < 132 then .error "struct.error"
    else
      let head2 := (stream.drop 12).take (size - 12)
      if head2.length < size - 12 then .error "connection closed"
      else
        let blen := readU32 (head2.drop 28)
        let dtype := readI32 (head2.drop 16)
        let rest := stream.drop size
        if rest.length < blen then .error "connection closed"
        else
          let bodyBytes := rest.take blen
          .ok {
            magic := magic
            vers := vers
            size := size
            sn := readU32 head2
            sec := readU32 (head2.drop 4)
            usec := readU32 (head2.drop 8)
            cmd := readI32 (head2.drop 12)
            type := dtype
            rows := readU32 (head2.drop 20)
            cols := readU32 (head2.drop 24)
            len := blen
            err := readI32 (head2.drop 32)
            flags := readI32 (head2.drop 36)
            name := rstripNul ((head2.drop 40).take 80)
            body := if dtype = DataTypes.SV_STRING then
                      BodyVal.str (rstripNul bodyBytes)
                    else BodyVal.raw bodyBytes }

/-! ## Codec lemmas -/

theorem readU32_toB4 (n : Nat) (l : List Nat) (h : n < 2 ^ 32) :
    readU32 (toB4 n ++ l) = n := by
  simp [readU32, toB4]
  omega

theorem readI32_toB4i (x : Int) (l : List Nat)
    (h1 : -(2 ^ 31) ≤ x) (h2 : x < 2 ^ 31) :
    readI32 (toB4i x ++ l) = x := by
  have hr : (2 : Int) ^ 32 = 4294967296 := by norm_num
  have hm : (x % (4294967296 : Int)).toNat < 2 ^ 32 := by
    rw [show (2 : Nat) ^ 32 = 4294967296 from by norm_num]
    omega
  simp only [readI32, toB4i, readU32_toB4 _ _ hm]
  rw [hr] at *
  omega

theorem padName80_length (l : List Nat) : (padName80 l).length = 80 := by
  simp [padName80, SV_NAME_LEN]

theorem drop4_toB4 (n : Nat) (l : List Nat) : (toB4 n ++ l).drop 4 = l := rfl

theorem drop4_toB4i (x : Int) (l : List Nat) : (toB4i x ++ l).drop 4 = l := rfl

theorem rstripNul_append_replicate (l : List Nat) (k : Nat) :
    rstripNul (l ++ List.replicate k 0) = rstripNul l := by
  simp [rstripNul]

theorem rstripNul_padName80 (l : List Nat) (h : l.length ≤ 80) :
    rstripNul (padName80 l) = rstripNul l := by
  rw [padName80, SV_NAME_LEN, List.take_of_length_le h, rstripNul_append_replicate]

theorem specHead2_length (sn : Nat) (cmd dt : Int) (pname : List Nat)
    (blen : Nat) (err flags : Int) (rows cols sec usec : Nat) :
    (specHead2 sn cmd dt pname blen err flags rows cols sec usec).length = 120 := by
  simp [specHead2, toB4, toB4i, padName80_length]

section FieldReads

variable (sn : Nat) (cmd dt : Int) (pname : List Nat) (blen : Nat)
  (err flags : Int) (rows cols sec usec : Nat)

theorem specHead2_read_sn (h : sn < 2 ^ 32) :
    readU32 (specHead2 sn cmd dt pname blen err flags rows cols sec usec) = sn :=
  readU32_toB4 _ _ h

theorem specHead2_read_sec (h : sec < 2 ^ 32) :
    readU32 ((specHead2 sn cmd dt pname blen err flags rows cols sec usec).drop 4) = sec :=
  readU32_toB4 _ _ h

theorem specHead2_read_usec (h : usec < 2 ^ 32) :
    readU32 ((specHead2 sn cmd dt pname blen err flags rows cols sec usec).drop 8) = usec :=
  readU32_toB4 _ _ h

theorem specHead2_read_cmd (h1 : -(2 ^ 31) ≤ cmd) (h2 : cmd < 2 ^ 31) :
    readI32 ((specHead2 sn cmd dt pname blen err flags rows cols sec usec).drop 12) = cmd :=
  readI32_toB4i _ _ h1 h2

theorem specHead2_read_dtype (h1 : -(2 ^ 31) ≤ dt) (h2 : dt < 2 ^ 31) :
    readI32 ((specHead2 sn cmd dt pname blen err flags rows cols sec usec).drop 16) = dt :=
  readI32_toB4i _ _ h1 h2

theorem specHead2_read_rows (h : rows < 2 ^ 32) :
    readU32 ((specHead2 sn cmd dt pname blen err flags rows cols sec usec).drop 20) = rows :=
  readU32_toB4 _ _ h

theorem specHead2_read_cols (h : cols < 2 ^ 32) :
    readU32 ((specHead2 sn cmd dt pname blen err flags rows cols sec usec).drop 24) = cols :=
  readU32_toB4 _ _ h

theorem specHead2_read_blen (h : blen < 2 ^ 32) :
    readU32 ((specHead2 sn cmd dt pname blen err flags rows cols sec usec).drop 28) = blen :=
  readU32_toB4 _ _ h

theorem specHead2_read_err (h1 : -(2 ^ 31) ≤ err) (h2 : err < 2 ^ 31) :
    readI32 ((specHead2 sn cmd dt pname blen err flags rows cols sec usec).drop 32) = err :=
  readI32_toB4i _ _ h1 h2

theorem specHead2_read_flags (h1 : -(2 ^ 31) ≤ flags) (h2 : flags < 2 ^ 31) :
    readI32 ((specHead2 sn cmd dt pname blen err flags rows cols sec usec).drop 36) = flags :=
  readI32_toB4i _ _ h1 h2

theorem specHead2_read_name :
    ((specHead2 sn cmd dt pname blen err flags rows cols sec usec).drop 40).take 80 =
      padName80 pname := by
  rw [show (specHead2 sn cmd dt pname blen err flags rows cols sec usec).drop 40 =
        padName80 pname from rfl]
  exact List.take_of_length_le (by rw [padName80_length])

end FieldReads

set_option maxRecDepth 100000

/-- C1: encoding a frame with `send_spec` from a valid header field combination
(serial number, command, data type, rows, cols, error, flags, a property name
of at most 80 ASCII characters, and the body) and decoding the bytes with
`recv_spec` reproduces every header field exactly; the recorded length equals
the body's byte count, the property name is zero-padded to the fixed 80-byte
width on encode, and trailing NUL bytes are stripped from it on decode. -/
theorem claim_C1_frame_roundtrip
    (sn : Nat) (cmd dt : Int) (pname body : List Nat) (err flags : Int)
    (rows cols sec usec : Nat)
    (hsn : sn < 2 ^ 32) (hsec : sec < 2 ^ 32) (husec : usec < 2 ^ 32)
    (hcmd1 : -(2 ^ 31) ≤ cmd) (hcmd2 : cmd < 2 ^ 31)
    (hdt1 : -(2 ^ 31) ≤ dt) (hdt2 : dt < 2 ^ 31)
    (herr1 : -(2 ^ 31) ≤ err) (herr2 : err < 2 ^ 31)
    (hfl1 : -(2 ^ 31) ≤ flags) (hfl2 : flags < 2 ^ 31)
    (hrows : rows < 2 ^ 32) (hcols : cols < 2 ^ 32)
    (hblen : body.length < 2 ^ 32)
    (hnlen : pname.length ≤ 80) (hascii : ∀ b ∈ pname, b < 128) :
    recv_spec (send_spec sn cmd dt pname body err flags rows cols sec usec) =
      .ok { magic := SV_SPEC_MAGIC, vers := 4, size := 132,
            sn := sn, sec := sec, usec := usec, cmd := cmd, type := dt,
            rows := rows, cols := cols, len := body.length, err := err,
            flags := flags, name := rstripNul pname,
            body := if dt = DataTypes.SV_STRING then BodyVal.str (rstripNul body)
                    else BodyVal.raw body } := by
  have hH2len := specHead2_length sn cmd dt pname body.length err flags rows cols sec usec
  have hSlen : (send_spec sn cmd dt pname body err flags rows cols sec usec).length =
      132 + body.length := by
    simp [send_spec, toB4, toB4i, hH2len]
    omega
  have hsplit : send_spec sn cmd dt pname body err flags rows cols sec usec =
      toB4 SV_SPEC_MAGIC ++ (toB4i SV_VERSION ++ (toB4 132 ++
        (specHead2 sn cmd dt pname body.length err flags rows cols sec usec ++ body))) := by
    simp [send_spec, List.append_assoc]
  have hd12 : (send_spec sn cmd dt pname body err flags rows cols sec usec).drop 12 =
      specHead2 sn cmd dt pname body.length err flags rows cols sec usec ++ body := by
    rw [hsplit, show (12 : Nat) = 4 + 8 from rfl, ← List.drop_drop, drop4_toB4,
      show (8 : Nat) = 4 + 4 from rfl, ← List.drop_drop, drop4_toB4i, drop4_toB4]
  have hhead2 : ((send_spec sn cmd dt pname body err flags rows cols sec usec).drop 12).take 120 =
      specHead2 sn cmd dt pname body.length err flags rows cols sec usec := by
    rw [hd12]; exact List.take_left' hH2len
  have hd132 : (send_spec sn cmd dt pname body err flags rows cols sec usec).drop 132 = body := by
    have hsplit2 : send_spec sn cmd dt pname body err flags rows cols sec usec =
        (toB4 SV_SPEC_MAGIC ++ toB4i SV_VERSION ++ toB4 132 ++
          specHead2 sn cmd dt pname body.length err flags rows cols sec usec) ++ body := by
      simp [send_spec, List.append_assoc]
    rw [hsplit2]
    exact List.drop_left' (by simp [toB4, toB4i, hH2len])
  have r0 : readU32 (send_spec sn cmd dt pname body err flags rows cols sec usec) =
      SV_SPEC_MAGIC := by
    rw [hsplit]
    exact readU32_toB4 _ _ (by norm_num [SV_SPEC_MAGIC])
  have r4 : readI32 ((send_spec sn cmd dt pname body err flags rows cols sec usec).drop 4) =
      (4 : Int) := by
    rw [hsplit, drop4_toB4]
    exact readI32_toB4i _ _ (by norm_num [SV_VERSION]) (by norm_num [SV_VERSION])
  have r8 : readU32 ((send_spec sn cmd dt pname body err flags rows cols sec usec).drop 8) =
      132 := by
    rw [hsplit, show (8 : Nat) = 4 + 4 from rfl, ← List.drop_drop, drop4_toB4, drop4_toB4i]
    exact readU32_toB4 _ _ (by norm_num)
  simp only [recv_spec, r0, r4, r8, hSlen]
  rw [if_neg (show ¬(132 + body.length < 12) from by omega)]
  rw [if_neg (show ¬(SV_SPEC_MAGIC ≠ SV_SPEC_MAGIC) from by simp)]
  rw [if_neg (show ¬((4 : Int) < 4) from by norm_num)]
  rw [if_neg (show ¬((132 : Nat) < 132) from by norm_num)]
  rw [show (132 - 12 : Nat) = 120 from rfl, hhead2, hH2len]
  rw [if_neg (show ¬((120 : Nat) < 120) from by norm_num)]
  rw [specHead2_read_blen sn cmd dt pname body.length err flags rows cols sec usec hblen,
    hd132]
  rw [if_neg (show ¬(body.length < body.length) from by omega)]
  rw [show (40 + (132 - 132) : Nat) = 40 from rfl, List.take_length,
    specHead2_read_sn sn cmd dt pname body.length err flags rows cols sec usec hsn,
    specHead2_read_sec sn cmd dt pname body.length err flags rows cols sec usec hsec,
    specHead2_read_usec sn cmd dt pname body.length err flags rows cols sec usec husec,
    specHead2_read_cmd sn cmd dt pname body.length err flags rows cols sec usec hcmd1 hcmd2,
    specHead2_read_dtype sn cmd dt pname body.length err flags rows cols sec usec hdt1 hdt2,
    specHead2_read_rows sn cmd dt pname body.length err flags rows cols sec usec hrows,
    specHead2_read_cols sn cmd dt pname body.length err flags rows cols sec usec hcols,
    specHead2_read_err sn cmd dt pname body.length err flags rows cols sec usec herr1 herr2,
    specHead2_read_flags sn cmd dt pname body.length err flags rows cols sec usec hfl1 hfl2,
    specHead2_read_name sn cmd dt pname body.length err flags rows cols sec usec,
    rstripNul_padName80 pname hnlen]

/-- Witness for C1 at a concrete frame: serial 7, command `SV_CHAN_READ`,
string body "42", property name "var". -/
theorem claim_C1_frame_roundtrip_witness :
    recv_spec (send_spec 7 11 2 [118, 97, 114] [52, 50] 0 0 0 0 1 2) =
      .ok { magic := SV_SPEC_MAGIC, vers := 4, size := 132, sn := 7, sec := 1,
            usec := 2, cmd := 11, type := 2, rows := 0, cols := 0, len := 2,
            err := 0, flags := 0, name := [118, 97, 114],
            body := BodyVal.str [52, 50] } := by
  have h := claim_C1_frame_roundtrip 7 11 2 [118, 97, 114] [52, 50] 0 0 0 0 1 2
    (by norm_num) (by norm_num) (by norm_num) (by norm_num) (by norm_num)
    (by norm_num) (by norm_num) (by norm_num) (by norm_num) (by norm_num)
    (by norm_num) (by norm_num) (by norm_num) (by norm_num) (by decide) (by decide)
  exact h.trans (congrArg Except.ok (by decide))

/-- C6 counterexample: a 132-byte stream whose magic field is 0 (not the SPEC
magic) and whose version is 4 is decoded successfully by `Client._listen`,
which returns a frame with the wrong magic instead of raising, refuting the
claim for the Client's decoder. -/
theorem claim_C6_counterexample :
    listen (toB4 0 ++ toB4i 4 ++ toB4 132 ++ List.replicate 120 0) =
      .ok { magic := 0, vers := 4, size := 132, sn := 0, sec := 0, usec := 0,
            cmd := 0, type := 0, rows := 0, cols := 0, len := 0, err := 0,
            flags := 0, name := [], body := BodyVal.raw [] } ∧
    (0 : Nat) ≠ SV_SPEC_MAGIC := by
  constructor
  · rfl
  · decide

/-- C6 amended: `SpecSocket.recv_spec` raises on a wrong magic constant or a
version below 4 and never returns a frame violating those bounds, but
`Client._listen` checks only the version: it never inspects the magic field,
so it only guarantees the version bound on frames it returns. -/
theorem claim_C6_amended_magic_version_checks :
    (∀ s m, recv_spec s = .ok m → m.magic = SV_SPEC_MAGIC ∧ 4 ≤ m.vers) ∧
    (∀ s, 12 ≤ s.length → (readU32 s ≠ SV_SPEC_MAGIC ∨ readI32 (s.drop 4) < 4) →
      ∃ e, recv_spec s = .error e) ∧
    (∀ s m, listen s = .ok m → 4 ≤ m.vers) ∧
    (∀ s, 12 ≤ s.length → readI32 (s.drop 4) < 4 → ∃ e, listen s = .error e) := by
  refine ⟨?_, ?_, ?_, ?_⟩
  · intro s m h
    simp only [recv_spec] at h
    split_ifs at h with h1 h2 h3 h4 h5 h6 <;> simp_all
    all_goals subst h
    all_goals exact ⟨rfl, h3⟩
  · intro s hlen hbad
    simp only [recv_spec]
    split_ifs with h1 h2 h3 h4 h5 h6 <;> try exact ⟨_, rfl⟩
    all_goals rcases hbad with hb | hb
    all_goals first
      | exact absurd hb h2
      | exact absurd hb h3
  · intro s m h
    simp only [listen] at h
    split_ifs at h with h1 h2 h3 h4 h5 <;> simp_all
    all_goals subst h
    all_goals exact h2
  · intro s hlen hbad
    simp only [listen]
    split_ifs with h1 <;> exact ⟨_, rfl⟩

/-- Witness for C6 amended, applying it at the concrete bad-magic stream for
`recv_spec` (which does reject it). -/
theorem claim_C6_amended_witness :
    ∃ e, recv_spec (toB4 0 ++ toB4i 4 ++ toB4 132 ++ List.replicate 120 0) = .error e :=
  claim_C6_amended_magic_version_checks.2.1 _ (by decide) (Or.inl (by decide))

/-! ## Client demultiplexer state (src/pycertifspec/Client.py)

Python dicts are modelled as association lists with unique keys; `insertA` and
`eraseA` mirror `d[k] = v` and `del d[k]`.  `eraseA` drops every pair with the
given key, which agrees with `del` on the unique-key states a dict can have. -/

def lookupA {α β : Type} [DecidableEq α] : List (α × β) → α → Option β
  | [], _ => none
  | (k', v) :: rest, k => if k' = k then some v else lookupA rest k

def insertA {α β : Type} [DecidableEq α] : List (α × β) → α → β → List (α × β)
  | [], k, v => [(k, v)]
  | (k', v') :: rest, k, v =>
      if k' = k then (k, v) :: rest else (k', v') :: insertA rest k v

def eraseA {α β : Type} [DecidableEq α] (l : List (α × β)) (k : α) : List (α × β) :=
  l.filter (fun p => p.1 ≠ k)

/-- ASCII byte list of a Python string literal. -/
def strBytes (s : String) : List Nat :=
  s.data.map Char.toNat

/-- Characters a Python `+=` on `_screen_print` appends: the decoded string of
an `SV_STRING` body, or the raw bytes otherwise. -/
def bodyChars : BodyVal → List Nat
  | .str cs => cs
  | .raw bs => bs

def MAX_SCREEN_PRINT_LEN : Nat := 10000

/-- Python `s.split("\n")` on a char-code list (10 is the newline). -/
def splitNL : List Nat → List (List Nat)
  | [] => [[]]
  | c :: rest =>
      if c = 10 then [] :: splitNL rest
      else
        match splitNL rest with
        | [] => [[c]]
        | p :: ps => (c :: p) :: ps

/-- Python `"\n".join(parts)`. -/
def joinNL : List (List Nat) → List Nat
  | [] => []
  | [p] => p
  | p :: ps => p ++ 10 :: joinNL ps

/-- The `output/tty` branch of `Client._threaded_reply_listener`: append the
chunk to `_screen_print`; if everything but the last three characters equals
"> \n", drop the last two newline-separated segments; finally, if the result
exceeds `MAX_SCREEN_PRINT_LEN` characters keep only the most recent
`MAX_SCREEN_PRINT_LEN`. -/
def handleTty (sp chunk : List Nat) : List Nat :=
  let s1 := sp ++ chunk
  let s2 := if s1.take (s1.length - 3) = [62, 32, 10] then
              joinNL ((splitNL s1).dropLast.dropLast)
            else s1
  if MAX_SCREEN_PRINT_LEN < s2.length then
    s2.drop (s2.length - MAX_SCREEN_PRINT_LEN)
  else s2

/-- A value of `Client._reply_events[sn]`: a `threading.Event` (with its set
flag) for a blocking caller, or a one-shot callback (identified by an id). -/
inductive Waiter where
  | event (isSet : Bool)
  | callback (cb : Nat)
deriving DecidableEq, Repr

/-- The mutable state touched by `Client._threaded_reply_listener` and the
blocking call paths: the serial-number counter, `_reply_events`,
`_reply_data` and `_screen_print`. -/
structure ReplySide where
  snCounter : Nat
  replyEvents : List (Nat × Waiter)
  replyData : List (Nat × SpecMessage)
  screenPrint : List Nat
deriving DecidableEq, Repr

/-- One iteration of `Client._threaded_reply_listener` on an inbound frame:
`output/tty` frames feed the console accumulator; otherwise, if the serial
number has an entry in `_reply_events`, a `threading.Event` entry stores the
frame in `_reply_data` and sets the event, while a callback entry is invoked
on a fresh thread (returned as the second component, paired with the frame
and the current screen print) — the listener never removes the entry. -/
def handleReply (st : ReplySide) (res : SpecMessage) :
    ReplySide × List (Nat × SpecMessage × List Nat) :=
  if res.name = strBytes "output/tty" then
    ({ st with screenPrint := handleTty st.screenPrint (bodyChars res.body) }, [])
  else
    match lookupA st.replyEvents res.sn with
    | none => (st, [])
    | some (.event _) =>
        ({ st with replyData := insertA st.replyData res.sn res,
                   replyEvents := insertA st.replyEvents res.sn (.event true) }, [])
    | some (.callback cb) => (st, [(cb, res, st.screenPrint)])

/-- The registration half of `Client.get`: allocate the next serial number and
store a fresh (unset) `threading.Event` in `_reply_events` before sending
`SV_CHAN_READ`. -/
def get_register (st : ReplySide) : Nat × ReplySide :=
  let sn := st.snCounter + 1
  (sn, { st with snCounter := sn,
                 replyEvents := insertA st.replyEvents sn (.event false) })

/-- The completion half of `Client.get`, run after the event is set: read
`_reply_data[sn]`, delete it, and return `None` for an `SV_ERROR` frame.  The
`_reply_events[sn]` entry is left in place — `get` never deletes it. -/
def get_complete (st : ReplySide) (sn : Nat) : Option SpecMessage × ReplySide :=
  match lookupA st.replyData sn with
  | some d =>
      (if d.type = DataTypes.SV_ERROR then none else some d,
       { st with replyData := eraseA st.replyData sn })
  | none => (none, st)

/-- The completion half of a blocking `Client.run`: delete `_reply_events[sn]`,
read and delete `_reply_data[sn]`, and return the frame together with the
accumulated screen print. -/
def run_complete (st : ReplySide) (sn : Nat) :
    Option (SpecMessage × List Nat) × ReplySide :=
  match lookupA st.replyData sn with
  | some d =>
      (some (d, st.screenPrint),
       { st with replyEvents := eraseA st.replyEvents sn,
                 replyData := eraseA st.replyData sn })
  | none => (none, { st with replyEvents := eraseA st.replyEvents sn })

/-! ## Subscription table (Client.subscribe / Client.unsubscribe) -/

inductive WireMsg where
  | register (prop : List Nat)
  | unregister (prop : List Nat)
deriving DecidableEq, Repr

/-- The state touched by `Client.subscribe`/`Client.unsubscribe`:
`_subscriptions` (property name to list of callback ids) and the frames sent
on the event socket. -/
structure EventSide where
  subscriptions : List (List Nat × List Nat)
  wire : List WireMsg
deriving DecidableEq, Repr

/-- `Client.subscribe`.  For a property with no local entry it installs
`[callback]`, sends `SV_REGISTER`, and (unless `nowait`) resolves the race on
the event socket: `outcome` is the first event observed (`none` = the wait
timed out).  An "error" event whose body differs from "No error" deletes the
registration and returns `False`; a timeout returns `False` with the
registration left in place.  For an already-registered property the callback
is appended when new.  The last result component lists the callback
invocations the call performs itself — the source never invokes any, so it is
empty in every branch. -/
def subscribe (st : EventSide) (prop : List Nat) (callback : Nat)
    (nowait : Bool) (outcome : Option SpecMessage) :
    Bool × EventSide × List (Nat × SpecMessage) :=
  match lookupA st.subscriptions prop with
  | none =>
      let st1 := { st with subscriptions := insertA st.subscriptions prop [callback],
                           wire := st.wire ++ [WireMsg.register prop] }
      if nowait then (true, st1, [])
      else
        match outcome with
        | some ev =>
            if ev.name = strBytes "error" ∧ ev.body ≠ BodyVal.str (strBytes "No error") then
              (false, { st1 with subscriptions := eraseA st1.subscriptions prop }, [])
            else (true, st1, [])
        | none => (false, st1, [])
  | some cbs =>
      if callback ∈ cbs then (true, st, [])
      else (true, { st with subscriptions := insertA st.subscriptions prop (cbs ++ [callback]) }, [])

/-- `Client.unsubscribe`: remove the callback when present; when the last
callback for the property is removed, send `SV_UNREGISTER` and delete the
entry.  Returns whether a removal happened. -/
def unsubscribe (st : EventSide) (prop : List Nat) (callback : Nat) :
    Bool × EventSide :=
  match lookupA st.subscriptions prop with
  | some cbs =>
      if callback ∈ cbs then
        let cbs' := cbs.erase callback
        if cbs' = [] then
          (true, { st with subscriptions := eraseA st.subscriptions prop,
                           wire := st.wire ++ [WireMsg.unregister prop] })
        else (true, { st with subscriptions := insertA st.subscriptions prop cbs' })
      else (false, st)
  | none => (false, st)

/-- A sequence of `subscribe(prop, c, nowait=True)` calls, one per callback. -/
def subscribeAll (st : EventSide) (prop : List Nat) (cbs : List Nat) : EventSide :=
  cbs.foldl (fun s cb => (subscribe s prop cb true none).2.1) st

/-- A sequence of `unsubscribe(prop, c)` calls, one per callback. -/
def unsubscribeAll (st : EventSide) (prop : List Nat) (cbs : List Nat) : EventSide :=
  cbs.foldl (fun s cb => (unsubscribe s prop cb).2) st

def countRegister (w : List WireMsg) (prop : List Nat) : Nat :=
  (w.filter (fun m => m = WireMsg.register prop)).length

def countUnregister (w : List WireMsg) (prop : List Nat) : Nat :=
  (w.filter (fun m => m = WireMsg.unregister prop)).length

/-! ## Association-list lemmas -/

theorem lookupA_eraseA {α β : Type} [DecidableEq α] (l : List (α × β)) (k : α) :
    lookupA (eraseA l k) k = none := by
  induction l with
  | nil => rfl
  | cons p rest ih =>
      rcases p with ⟨a, b⟩
      by_cases h : a = k
      · simpa [eraseA, List.filter_cons, h] using ih
      · simpa [eraseA, List.filter_cons, h, lookupA] using ih

theorem lookupA_insertA {α β : Type} [DecidableEq α] (l : List (α × β)) (k : α) (v : β) :
    lookupA (insertA l k v) k = some v := by
  induction l with
  | nil => simp [insertA, lookupA]
  | cons p rest ih =>
      rcases p with ⟨a, b⟩
      by_cases h : a = k
      · simp [insertA, lookupA, h]
      · simp [insertA, lookupA, h, ih]

/-- A frame used in concrete scenarios: a string-typed reply on property
"var/FOO" with the given serial number and body. -/
def exFrame (snv : Nat) (bodyv : List Nat) : SpecMessage :=
  { magic := SV_SPEC_MAGIC, vers := 4, size := 132, sn := snv, sec := 0, usec := 0,
    cmd := EventTypes.SV_REPLY, type := DataTypes.SV_STRING, rows := 0, cols := 0,
    len := bodyv.length, err := 0, flags := 0, name := strBytes "var/FOO",
    body := BodyVal.str bodyv }

/-- A frame with no matching entry in `_reply_events` (and not `output/tty`)
is dropped by the reply listener with no state change and no callback run. -/
theorem handleReply_drop (st : ReplySide) (res : SpecMessage)
    (hname : res.name ≠ strBytes "output/tty")
    (hlook : lookupA st.replyEvents res.sn = none) :
    handleReply st res = (st, []) := by
  simp [handleReply, hname, hlook]

/-- C2 counterexample: a concrete `get` round trip.  `get` allocates serial 1
and registers an event; the reply is delivered and `get` completes — but the
pending-call entry for serial 1 is still present afterwards, and a late frame
with serial 1 is not silently dropped: the listener stores it into
`_reply_data` again, changing the client state, contrary to the claim that a
pending call is destroyed the instant its frame is delivered. -/
theorem claim_C2_counterexample :
    get_register ⟨0, [], [], []⟩ = (1, ⟨1, [(1, .event false)], [], []⟩) ∧
    handleReply ⟨1, [(1, .event false)], [], []⟩ (exFrame 1 [49]) =
      (⟨1, [(1, .event true)], [(1, exFrame 1 [49])], []⟩, []) ∧
    get_complete ⟨1, [(1, .event true)], [(1, exFrame 1 [49])], []⟩ 1 =
      (some (exFrame 1 [49]), ⟨1, [(1, .event true)], [], []⟩) ∧
    handleReply ⟨1, [(1, .event true)], [], []⟩ (exFrame 1 [50]) ≠
      (⟨1, [(1, .event true)], [], []⟩, []) := by
  decide

/-- C2 amended: a frame whose serial number has no `_reply_events` entry (and
which is not `output/tty`) is dropped with the state unchanged; a blocking
`run` deletes its entry on completion, so frames arriving after it are
dropped; but `get` (and `set`) never delete their `_reply_events` entry on
completion, so a late frame for such a resolved call is re-delivered into
`_reply_data` rather than dropped. -/
theorem claim_C2_amended_pending_call_lifecycle :
    (∀ (st : ReplySide) (res : SpecMessage),
        res.name ≠ strBytes "output/tty" →
        lookupA st.replyEvents res.sn = none →
        handleReply st res = (st, [])) ∧
    (∀ (st : ReplySide) (sn : Nat) (res : SpecMessage),
        res.name ≠ strBytes "output/tty" → res.sn = sn →
        handleReply (run_complete st sn).2 res = ((run_complete st sn).2, [])) ∧
    (∀ (st : ReplySide) (sn : Nat),
        (get_complete st sn).2.replyEvents = st.replyEvents) := by
  refine ⟨handleReply_drop, ?_, ?_⟩
  · intro st sn res hname hsn
    have hre : ((run_complete st sn).2).replyEvents = eraseA st.replyEvents sn := by
      simp only [run_complete]
      split <;> rfl
    exact handleReply_drop _ _ hname (by rw [hre, hsn]; exact lookupA_eraseA _ _)
  · intro st sn
    simp only [get_complete]
    split <;> rfl

/-- Witness for C2 amended at concrete states: an unmatched frame is dropped,
and a frame arriving after a blocking `run` completed is dropped. -/
theorem claim_C2_amended_witness :
    handleReply ⟨5, [], [], []⟩ (exFrame 3 [49]) = (⟨5, [], [], []⟩, []) ∧
    handleReply (run_complete ⟨1, [(1, Waiter.event true)], [(1, exFrame 1 [49])], []⟩ 1).2
        (exFrame 1 [50]) =
      ((run_complete ⟨1, [(1, Waiter.event true)], [(1, exFrame 1 [49])], []⟩ 1).2, []) :=
  ⟨claim_C2_amended_pending_call_lifecycle.1 _ _ (by decide) (by decide),
   claim_C2_amended_pending_call_lifecycle.2.1 _ _ _ (by decide) rfl⟩

/-- A concrete event on the shared "error" stream with a non-empty body
different from "No error". -/
def exErrorEvent : SpecMessage :=
  { magic := SV_SPEC_MAGIC, vers := 4, size := 132, sn := 0, sec := 0, usec := 0,
    cmd := EventTypes.SV_EVENT, type := DataTypes.SV_STRING, rows := 0, cols := 0,
    len := 3, err := 0, flags := 0, name := strBytes "error",
    body := BodyVal.str (strBytes "bad") }

/-- C3 counterexample: a registration attempt on a fresh property in which
nothing arrives within the timeout returns failure, but the local callback
registration is left installed — a dangling registration, contrary to the
claim. -/
theorem claim_C3_counterexample :
    (subscribe ⟨[], []⟩ (strBytes "var/FOO") 0 false none).1 = false ∧
    lookupA (subscribe ⟨[], []⟩ (strBytes "var/FOO") 0 false none).2.1.subscriptions
      (strBytes "var/FOO") = some [0] := by
  decide

/-- C3 amended: if the "error" stream answers first with a body different
from "No error", `subscribe` returns `False` (it raises no `RemoteError`) and
rolls the local registration back; if neither arrives within the timeout it
returns `False` but leaves the callback registered. -/
theorem claim_C3_amended_subscribe_race (st : EventSide) (prop : List Nat)
    (cb : Nat) (ev : SpecMessage)
    (hnew : lookupA st.subscriptions prop = none) :
    (ev.name = strBytes "error" → ev.body ≠ BodyVal.str (strBytes "No error") →
      (subscribe st prop cb false (some ev)).1 = false ∧
      lookupA (subscribe st prop cb false (some ev)).2.1.subscriptions prop = none) ∧
    ((subscribe st prop cb false none).1 = false ∧
      lookupA (subscribe st prop cb false none).2.1.subscriptions prop = some [cb]) := by
  constructor
  · intro hn hb
    constructor <;> simp [subscribe, hnew, hn, hb, lookupA_eraseA]
  · constructor <;> simp [subscribe, hnew, lookupA_insertA]

/-- Witness for C3 amended at concrete inputs: an error event with body "bad"
first makes the subscribe fail with the registration rolled back; a timeout
leaves the registration installed. -/
theorem claim_C3_amended_witness :
    ((subscribe ⟨[], []⟩ (strBytes "var/FOO") 0 false (some exErrorEvent)).1 = false ∧
      lookupA (subscribe ⟨[], []⟩ (strBytes "var/FOO") 0 false
        (some exErrorEvent)).2.1.subscriptions (strBytes "var/FOO") = none) ∧
    ((subscribe ⟨[], []⟩ (strBytes "var/FOO") 0 false none).1 = false ∧
      lookupA (subscribe ⟨[], []⟩ (strBytes "var/FOO") 0 false
        none).2.1.subscriptions (strBytes "var/FOO") = some [0]) := by
  have h := claim_C3_amended_subscribe_race ⟨[], []⟩ (strBytes "var/FOO") 0 exErrorEvent
    (by decide)
  exact ⟨h.1 (by decide) (by decide), h.2⟩

/-- C7 counterexample: subscribing to a property that already has a local
callback appends the new callback and sends nothing, but delivers nothing to
the new callback — the subscription table holds no cached frame at all, so the
claimed immediate delivery of the most recently observed frame does not
happen (the invocation list of the call is empty). -/
theorem claim_C7_counterexample :
    subscribe ⟨[(strBytes "var/FOO", [0])], []⟩ (strBytes "var/FOO") 1 false none =
      (true, ⟨[(strBytes "var/FOO", [0, 1])], []⟩, []) := by
  decide

/-- C7 amended: for a property that already has local callbacks, `subscribe`
appends the callback when it is new (and is a no-op when it is already
present), sends no REGISTER and nothing else on the wire, and invokes no
callback — no cached frame exists or is delivered. -/
theorem claim_C7_amended_subscribe_existing (st : EventSide) (prop : List Nat)
    (cb : Nat) (cbs : List Nat) (nowait : Bool) (outcome : Option SpecMessage)
    (h : lookupA st.subscriptions prop = some cbs) :
    (cb ∉ cbs → subscribe st prop cb nowait outcome =
      (true, { st with subscriptions := insertA st.subscriptions prop (cbs ++ [cb]) }, [])) ∧
    (cb ∈ cbs → subscribe st prop cb nowait outcome = (true, st, [])) := by
  constructor <;> intro hmem <;> simp [subscribe, h, hmem]

/-- Witness for C7 amended at a concrete state with one existing callback. -/
theorem claim_C7_amended_witness :
    subscribe ⟨[(strBytes "var/FOO", [0])], []⟩ (strBytes "var/FOO") 1 true none =
      (true, ⟨[(strBytes "var/FOO", [0, 1])], []⟩, []) := by
  have h := (claim_C7_amended_subscribe_existing ⟨[(strBytes "var/FOO", [0])], []⟩
    (strBytes "var/FOO") 1 [0] true none (by decide)).1 (by decide)
  exact h.trans (by decide)

theorem countRegister_append (w1 w2 : List WireMsg) (prop : List Nat) :
    countRegister (w1 ++ w2) prop = countRegister w1 prop + countRegister w2 prop := by
  simp [countRegister, List.filter_append]

theorem countUnregister_append (w1 w2 : List WireMsg) (prop : List Nat) :
    countUnregister (w1 ++ w2) prop = countUnregister w1 prop + countUnregister w2 prop := by
  simp [countUnregister, List.filter_append]

/-- After the first callback is installed, every further `subscribe` for the
property appends its callback and sends nothing on the wire. -/
theorem subscribeAll_rest (prop : List Nat) (rest : List Nat) :
    ∀ (st : EventSide) (acc : List Nat),
      lookupA st.subscriptions prop = some acc →
      (∀ c ∈ rest, c ∉ acc) → rest.Nodup →
      lookupA (subscribeAll st prop rest).subscriptions prop = some (acc ++ rest) ∧
      (subscribeAll st prop rest).wire = st.wire := by
  induction rest with
  | nil =>
      intro st acc h _ _
      simpa [subscribeAll] using h
  | cons c rs ih =>
      intro st acc hlook hdisj hnodup
      have hc : c ∉ acc := hdisj c (by simp)
      have hstep : (subscribe st prop c true none).2.1 =
          { st with subscriptions := insertA st.subscriptions prop (acc ++ [c]) } := by
        simp [subscribe, hlook, hc]
      have hrec := ih ((subscribe st prop c true none).2.1) (acc ++ [c])
        (by rw [hstep]; exact lookupA_insertA _ _ _)
        (by
          intro x hx
          have hxr : x ∉ acc := hdisj x (by simp [hx])
          have hxc : x ≠ c := by
            intro hxeq
            subst hxeq
            exact (List.nodup_cons.mp hnodup).1 hx
          simp [hxr, hxc])
        (List.nodup_cons.mp hnodup).2
      have hfold : subscribeAll st prop (c :: rs) =
          subscribeAll ((subscribe st prop c true none).2.1) prop rs := rfl
      rw [hfold]
      refine ⟨?_, ?_⟩
      · rw [hrec.1]
        simp
      · rw [hrec.2, hstep]

/-- N subscribes on a fresh property: one REGISTER, all callbacks installed. -/
theorem subscribeAll_spec (st0 : EventSide) (prop : List Nat) (cbs : List Nat)
    (hnew : lookupA st0.subscriptions prop = none) (hnodup : cbs.Nodup)
    (hne : cbs ≠ []) :
    lookupA (subscribeAll st0 prop cbs).subscriptions prop = some cbs ∧
    (subscribeAll st0 prop cbs).wire = st0.wire ++ [WireMsg.register prop] := by
  cases cbs with
  | nil => cases hne rfl
  | cons c rs =>
      have hstep : (subscribe st0 prop c true none).2.1 =
          { st0 with subscriptions := insertA st0.subscriptions prop [c],
                     wire := st0.wire ++ [WireMsg.register prop] } := by
        simp [subscribe, hnew]
      have hrec := subscribeAll_rest prop rs ((subscribe st0 prop c true none).2.1) [c]
        (by rw [hstep]; exact lookupA_insertA _ _ _)
        (by
          intro x hx
          have hxc : x ≠ c := by
            intro hxeq
            subst hxeq
            exact (List.nodup_cons.mp hnodup).1 hx
          simp [hxc])
        (List.nodup_cons.mp hnodup).2
      have hfold : subscribeAll st0 prop (c :: rs) =
          subscribeAll ((subscribe st0 prop c true none).2.1) prop rs := rfl
      rw [hfold]
      refine ⟨?_, ?_⟩
      · rw [hrec.1]
        simp
      · rw [hrec.2, hstep]

/-- Removing all N callbacks: exactly one UNREGISTER, sent when the last one
goes, and the table entry disappears. -/
theorem unsubscribeAll_spec (prop : List Nat) (cbs : List Nat) :
    ∀ (st : EventSide),
      lookupA st.subscriptions prop = some cbs → cbs.Nodup → cbs ≠ [] →
      lookupA (unsubscribeAll st prop cbs).subscriptions prop = none ∧
      (unsubscribeAll st prop cbs).wire = st.wire ++ [WireMsg.unregister prop] := by
  induction cbs with
  | nil =>
      intro st _ _ hne
      cases hne rfl
  | cons c rs ih =>
      intro st hlook hnodup hne
      by_cases hrs : rs = []
      · subst hrs
        have hstep : (unsubscribe st prop c).2 =
            { st with subscriptions := eraseA st.subscriptions prop,
                      wire := st.wire ++ [WireMsg.unregister prop] } := by
          simp [unsubscribe, hlook]
        have hfold : unsubscribeAll st prop [c] = (unsubscribe st prop c).2 := rfl
        rw [hfold, hstep]
        exact ⟨lookupA_eraseA _ _, rfl⟩
      · have herase : (c :: rs).erase c = rs := List.erase_cons_head c rs
        have hstep : (unsubscribe st prop c).2 =
            { st with subscriptions := insertA st.subscriptions prop rs } := by
          simp [unsubscribe, hlook, herase, hrs]
        have hrec := ih ((unsubscribe st prop c).2)
          (by rw [hstep]; exact lookupA_insertA _ _ _)
          (List.nodup_cons.mp hnodup).2 hrs
        have hfold : unsubscribeAll st prop (c :: rs) =
            unsubscribeAll ((unsubscribe st prop c).2) prop rs := rfl
        rw [hfold]
        refine ⟨hrec.1, ?_⟩
        rw [hrec.2, hstep]

/-- C4: for a property with no prior local registration and N distinct
callbacks, the N subscribes send exactly one REGISTER (on the first) and no
UNREGISTER, the local table then holds all N callbacks, and removing all N
sends exactly one UNREGISTER (when the last is removed) and empties the
entry. -/
theorem claim_C4_register_dedup (st0 : EventSide) (prop : List Nat)
    (cbs : List Nat) (hnew : lookupA st0.subscriptions prop = none)
    (hnodup : cbs.Nodup) (hne : cbs ≠ []) :
    lookupA (subscribeAll st0 prop cbs).subscriptions prop = some cbs ∧
    countRegister (subscribeAll st0 prop cbs).wire prop =
      countRegister st0.wire prop + 1 ∧
    countUnregister (subscribeAll st0 prop cbs).wire prop =
      countUnregister st0.wire prop ∧
    lookupA (unsubscribeAll (subscribeAll st0 prop cbs) prop cbs).subscriptions prop
      = none ∧
    countRegister (unsubscribeAll (subscribeAll st0 prop cbs) prop cbs).wire prop =
      countRegister st0.wire prop + 1 ∧
    countUnregister (unsubscribeAll (subscribeAll st0 prop cbs) prop cbs).wire prop =
      countUnregister st0.wire prop + 1 := by
  have hsub := subscribeAll_spec st0 prop cbs hnew hnodup hne
  have huns := unsubscribeAll_spec prop cbs (subscribeAll st0 prop cbs) hsub.1 hnodup hne
  refine ⟨hsub.1, ?_, ?_, huns.1, ?_, ?_⟩
  · rw [hsub.2, countRegister_append]
    simp [countRegister]
  · rw [hsub.2, countUnregister_append]
    simp [countUnregister]
  · rw [huns.2, hsub.2, countRegister_append, countRegister_append]
    simp [countRegister]
  · rw [huns.2, hsub.2, countUnregister_append, countUnregister_append]
    simp [countUnregister]

/-- Witness for C4 with three concrete callbacks on a fresh client. -/
theorem claim_C4_register_dedup_witness :
    countRegister (unsubscribeAll (subscribeAll ⟨[], []⟩ (strBytes "var/FOO") [0, 1, 2])
      (strBytes "var/FOO") [0, 1, 2]).wire (strBytes "var/FOO") = 1 ∧
    countUnregister (unsubscribeAll (subscribeAll ⟨[], []⟩ (strBytes "var/FOO") [0, 1, 2])
      (strBytes "var/FOO") [0, 1, 2]).wire (strBytes "var/FOO") = 1 ∧
    lookupA (subscribeAll ⟨[], []⟩ (strBytes "var/FOO") [0, 1, 2]).subscriptions
      (strBytes "var/FOO") = some [0, 1, 2] := by
  have h := claim_C4_register_dedup ⟨[], []⟩ (strBytes "var/FOO") [0, 1, 2]
    (by decide) (by decide) (by decide)
  exact ⟨by simpa [countRegister] using h.2.2.2.2.1,
         by simpa [countUnregister] using h.2.2.2.2.2, h.1⟩

/-! ## Var.value numeric array decoding (src/pycertifspec/Var.py) -/

/-- Split a list into consecutive chunks of `w` elements; the fuel argument
bounds the recursion (callers pass the list length). -/
def chunkGo {α : Type} (w : Nat) : Nat → List α → List (List α)
  | _, [] => []
  | 0, _ :: _ => []
  | fuel + 1, c :: rest => ((c :: rest).take w) :: chunkGo w fuel ((c :: rest).drop w)

/-- `np.frombuffer`-style chunking: the body split into elements of `w` bytes
(row-major, so it also serves as `np.reshape` into rows of `w` entries). -/
def chunkList {α : Type} (w : Nat) (l : List α) : List (List α) :=
  chunkGo w l.length l

/-- The value `Var.value` produces for a numeric array frame: either the flat
one-dimensional element sequence, or the reshaped rows-by-cols grid. -/
inductive NumArrVal where
  | flat (elems : List (List Nat))
  | grid (rows : List (List (List Nat)))
deriving DecidableEq, Repr

/-- The numeric-array branch of `Var.value`: `np.frombuffer(body, dtype)`
splits the body into elements of the dtype's width (failing when the length
is not a multiple), and the result is reshaped to `(rows, cols)` unless
`rows + cols == 1` (the source's one-dimensional test); `np.reshape` fails
unless `rows * cols` equals the element count. -/
def var_value_numeric (t : Int) (rows cols : Nat) (body : List Nat) :
    Option NumArrVal :=
  match DataTypes.itemSize t with
  | none => none
  | some w =>
      if w ∣ body.length then
        let elems := chunkList w body
        if rows + cols ≠ 1 then
          if elems.length = rows * cols then some (.grid (chunkList cols elems))
          else none
        else some (.flat elems)
      else none

set_option maxHeartbeats 2000000 in
theorem itemSize_pos (t : Int) (w : Nat) (h : DataTypes.itemSize t = some w) :
    0 < w := by
  simp only [DataTypes.itemSize] at h
  split_ifs at h <;>
    first
      | exact Option.noConfusion h
      | (injection h with h2; omega)

theorem chunkGo_length {α : Type} (w : Nat) (hw : 0 < w) :
    ∀ (fuel : Nat) (l : List α), l.length ≤ fuel → w ∣ l.length →
      (chunkGo w fuel l).length = l.length / w := by
  intro fuel
  induction fuel with
  | zero =>
      intro l hle _
      have : l = [] := List.eq_nil_of_length_eq_zero (by omega)
      subst this
      simp [chunkGo]
  | succ f ih =>
      intro l hle hdvd
      cases l with
      | nil => simp [chunkGo]
      | cons c rest =>
          rcases hdvd with ⟨k, hk⟩
          have hk1 : 1 ≤ k := by
            rcases Nat.eq_zero_or_pos k with h0 | h1
            · subst h0; simp at hk
            · exact h1
          have hlen2 : (c :: rest).length - w = w * (k - 1) := by
            rw [hk, Nat.mul_sub, Nat.mul_one]
          have hdroplen : ((c :: rest).drop w).length = w * (k - 1) := by
            rw [List.length_drop]; exact hlen2
          have hrecle : ((c :: rest).drop w).length ≤ f := by
            rw [List.length_drop]
            simp only [List.length_cons] at hle ⊢
            omega
          have hrec := ih ((c :: rest).drop w) hrecle ⟨k - 1, hdroplen⟩
          simp only [chunkGo, List.length_cons]
          rw [hrec, hdroplen]
          have h1 : w * (k - 1) / w = k - 1 := Nat.mul_div_cancel_left _ hw
          have h2 : rest.length + 1 = w * k := by simpa using hk
          rw [h1, h2, Nat.mul_div_cancel_left _ hw]
          omega

theorem chunkGo_mem_length {α : Type} (w : Nat) (hw : 0 < w) :
    ∀ (fuel : Nat) (l : List α), l.length ≤ fuel → w ∣ l.length →
      ∀ c ∈ chunkGo w fuel l, c.length = w := by
  intro fuel
  induction fuel with
  | zero =>
      intro l hle _
      have : l = [] := List.eq_nil_of_length_eq_zero (by omega)
      subst this
      simp [chunkGo]
  | succ f ih =>
      intro l hle hdvd
      cases l with
      | nil => simp [chunkGo]
      | cons c rest =>
          rcases hdvd with ⟨k, hk⟩
          have hk1 : 1 ≤ k := by
            rcases Nat.eq_zero_or_pos k with h0 | h1
            · subst h0; simp at hk
            · exact h1
          have hwle : w ≤ (c :: rest).length := by
            rw [hk]
            calc w = w * 1 := by omega
            _ ≤ w * k := Nat.mul_le_mul_left w hk1
          have hlen2 : (c :: rest).length - w = w * (k - 1) := by
            rw [hk, Nat.mul_sub, Nat.mul_one]
          have hdroplen : ((c :: rest).drop w).length = w * (k - 1) := by
            rw [List.length_drop]; exact hlen2
          intro x hx
          simp only [chunkGo, List.mem_cons] at hx
          rcases hx with hx | hx
          · rw [hx, List.length_take]
            omega
          · exact ih ((c :: rest).drop w)
              (by rw [List.length_drop]; simp at hle ⊢; omega)
              ⟨k - 1, hdroplen⟩ x hx

theorem chunkList_length {α : Type} (w : Nat) (l : List α) (hw : 0 < w)
    (hdvd : w ∣ l.length) : (chunkList w l).length = l.length / w :=
  chunkGo_length w hw l.length l le_rfl hdvd

theorem chunkList_mem_length {α : Type} (w : Nat) (l : List α) (hw : 0 < w)
    (hdvd : w ∣ l.length) : ∀ c ∈ chunkList w l, c.length = w :=
  chunkGo_mem_length w hw l.length l le_rfl hdvd

/-- C5 counterexample: a numeric array frame with rows = 1 and cols = 2 (16
body bytes of `SV_ARR_DOUBLE`, element width 8).  The claim says the decoded
value is a flat sequence of length max(1,2) = 2; the code's test is
`rows + cols != 1`, which is 3 here, so it reshapes and `Var.value` returns a
1-by-2 two-dimensional grid instead. -/
theorem claim_C5_counterexample :
    var_value_numeric DataTypes.SV_ARR_DOUBLE 1 2 (List.replicate 16 0) =
      some (NumArrVal.grid [[List.replicate 8 0, List.replicate 8 0]]) := by
  decide

/-- C5 amended: the decoded value is flat exactly when `rows + cols = 1` (the
code's one-dimensional test), with length equal to the element count implied
by the body length and the element width; otherwise decoding succeeds iff
`rows * cols` equals that element count, in which case the value is a grid of
`rows` rows of `cols` elements each. -/
theorem claim_C5_amended_reshape (t : Int) (w rows cols : Nat) (body : List Nat)
    (hw : DataTypes.itemSize t = some w) (hdvd : w ∣ body.length) :
    (rows + cols = 1 →
      var_value_numeric t rows cols body = some (.flat (chunkList w body)) ∧
      (chunkList w body).length = body.length / w) ∧
    (rows + cols ≠ 1 →
      ((var_value_numeric t rows cols body).isSome ↔
        body.length / w = rows * cols) ∧
      (body.length / w = rows * cols → 0 < cols →
        var_value_numeric t rows cols body =
          some (.grid (chunkList cols (chunkList w body))) ∧
        (chunkList cols (chunkList w body)).length = rows ∧
        ∀ r ∈ chunkList cols (chunkList w body), r.length = cols)) := by
  have hw0 : 0 < w := itemSize_pos t w hw
  have hlen := chunkList_length w body hw0 hdvd
  constructor
  · intro h1
    refine ⟨?_, hlen⟩
    simp [var_value_numeric, hw, hdvd, h1]
  · intro hne
    refine ⟨?_, ?_⟩
    · rw [← hlen]
      by_cases hcount : (chunkList w body).length = rows * cols
      · simp [var_value_numeric, hw, hdvd, hne, hcount]
      · simp [var_value_numeric, hw, hdvd, hne, hcount]
    · intro hcnt hcols
      have hcount : (chunkList w body).length = rows * cols := by
        rw [hlen]; exact hcnt
      have hgdvd : cols ∣ (chunkList w body).length := by
        rw [hcount]; exact ⟨rows, Nat.mul_comm rows cols⟩
      refine ⟨?_, ?_, ?_⟩
      · simp [var_value_numeric, hw, hdvd, hne, hcount]
      · rw [chunkList_length cols _ hcols hgdvd, hcount, Nat.mul_div_cancel _ hcols]
      · exact chunkList_mem_length cols _ hcols hgdvd

/-- Witness for C5 amended on a concrete `SV_ARR_LONG` frame: 24 body bytes,
element width 4, reshaped to a 2-by-3 grid. -/
theorem claim_C5_amended_witness :
    var_value_numeric DataTypes.SV_ARR_LONG 2 3 (List.replicate 24 0) =
      some (.grid (chunkList 3 (chunkList 4 (List.replicate 24 0)))) ∧
    (chunkList 3 (chunkList 4 (List.replicate 24 0))).length = 2 := by
  have h := (claim_C5_amended_reshape DataTypes.SV_ARR_LONG 4 2 3 (List.replicate 24 0)
    (by decide) (by decide)).2 (by decide)
  exact ⟨(h.2 (by decide) (by decide)).1, (h.2 (by decide) (by decide)).2.1⟩

/-! ## Service discovery (SpecSocket.connect_spec) -/

/-- The candidate list `connect_spec` scans: `ports + range(lo, hi+1)`, with
the explicit `port` inserted at the front when given. -/
def to_scan (port : Option Nat) (ports : List Nat) (port_range : Nat × Nat) :
    List Nat :=
  let base := ports ++ List.range' port_range.1 (port_range.2 + 1 - port_range.1)
  match port with
  | some p => p :: base
  | none => base

/-- Whether the attempt on port `p` succeeds: `net p` is the reply frame the
HELLO sent to `p` produces (`none` when connect/send/recv raises, which the
source catches and skips), and the port is accepted only on a
`SV_HELLO_REPLY` command. -/
def accepted (net : Nat → Option SpecMessage) (p : Nat) : Bool :=
  match net p with
  | some r => r.cmd == EventTypes.SV_HELLO_REPLY
  | none => false

/-- `SpecSocket.connect_spec`: scan the candidates in order and return the
first accepted port, raising when none is; on both exits `settimeout(None)`
clears the per-port timeout (the second component is the socket timeout after
the call). -/
def connect_spec (net : Nat → Option SpecMessage) (port : Option Nat)
    (ports : List Nat) (port_range : Nat × Nat) : Except String Nat × Option ℚ :=
  match (to_scan port ports port_range).find? (accepted net) with
  | some p => (.ok p, none)
  | none => (.error "No SPEC server found", none)

theorem find?_some_decomp {α : Type} (p : α → Bool) (l : List α) (a : α)
    (h : l.find? p = some a) :
    p a = true ∧ ∃ l1 l2, l = l1 ++ a :: l2 ∧ ∀ x ∈ l1, p x = false := by
  induction l with
  | nil => simp [List.find?] at h
  | cons b t ih =>
      cases hb : p b with
      | true =>
          rw [List.find?_cons_of_pos _ hb] at h
          cases h
          exact ⟨hb, [], t, rfl, by simp⟩
      | false =>
          rw [List.find?_cons_of_neg _ (by simp [hb])] at h
          rcases ih h with ⟨hpa, l1, l2, heq, hall⟩
          refine ⟨hpa, b :: l1, l2, by rw [heq]; rfl, ?_⟩
          intro x hx
          rcases List.mem_cons.mp hx with hx | hx
          · subst hx
            exact hb
          · exact hall x hx

/-- C8: discovery scans the explicit port first, then the port list, then the
inclusive range; a port is returned only if it is the first candidate whose
HELLO was answered by a HELLO_REPLY; when no candidate is accepted the call
fails with the discovery error; and the per-port timeout is cleared on every
exit. -/
theorem claim_C8_discovery (net : Nat → Option SpecMessage) (port0 : Nat)
    (ports : List Nat) (port_range : Nat × Nat) :
    (to_scan (some port0) ports port_range =
      port0 :: (ports ++ List.range' port_range.1 (port_range.2 + 1 - port_range.1))) ∧
    (∀ q, q ∈ List.range' port_range.1 (port_range.2 + 1 - port_range.1) ↔
      (port_range.1 ≤ q ∧ q ≤ port_range.2)) ∧
    (∀ (po : Option Nat) (p : Nat),
      (connect_spec net po ports port_range).1 = .ok p →
      accepted net p = true ∧
      ∃ l1 l2, to_scan po ports port_range = l1 ++ p :: l2 ∧
        ∀ q ∈ l1, accepted net q = false) ∧
    (∀ (po : Option Nat),
      (∀ p ∈ to_scan po ports port_range, accepted net p = false) →
      (connect_spec net po ports port_range).1 = .error "No SPEC server found") ∧
    (∀ (po : Option Nat), (connect_spec net po ports port_range).2 = none) := by
  refine ⟨rfl, ?_, ?_, ?_, ?_⟩
  · intro q
    rw [List.mem_range'_1]
    omega
  · intro po p hok
    simp only [connect_spec] at hok
    rcases hfind : (to_scan po ports port_range).find? (accepted net) with _ | q
    · rw [hfind] at hok
      exact Except.noConfusion hok
    · rw [hfind] at hok
      cases hok
      exact find?_some_decomp _ _ _ hfind
  · intro po hnone
    have hfind : (to_scan po ports port_range).find? (accepted net) = none := by
      rw [List.find?_eq_none]
      intro x hx
      simp [hnone x hx]
    simp [connect_spec, hfind]
  · intro po
    simp only [connect_spec]
    rcases hfind : (to_scan po ports port_range).find? (accepted net) <;> simp [hfind]

/-- Witness for C8 at a concrete network: only port 6512 replies HELLO_REPLY;
scanning port list [23] and range (6510, 6513) finds it, and a network where
nothing answers yields the discovery failure. -/
theorem claim_C8_discovery_witness :
    ((connect_spec (fun p => if p = 6512 then some (exFrame 0 []) else none)
        none [23] (6510, 6513)).1 =
      .ok 6512 →
      accepted (fun p => if p = 6512 then some (exFrame 0 []) else none) 6512 = true) ∧
    (connect_spec (fun _ => none) (some 7) [23] (6510, 6511)).1 =
      .error "No SPEC server found" ∧
    (connect_spec (fun _ => none) (some 7) [23] (6510, 6511)).2 = none := by
  refine ⟨?_, ?_, ?_⟩
  · intro hok
    exact ((claim_C8_discovery (fun p => if p = 6512 then some (exFrame 0 []) else none)
      0 [23] (6510, 6513)).2.2.1 none 6512 hok).1
  · exact (claim_C8_discovery (fun _ => none) 7 [23] (6510, 6511)).2.2.2.1 (some 7)
      (by intro p hp; simp [accepted])
  · exact (claim_C8_discovery (fun _ => none) 7 [23] (6510, 6511)).2.2.2.2 (some 7)

/-! ## Motor.move / Motor.moveto (src/pycertifspec/Motor.py) -/

/-- What `moveto` does after issuing the composite command: with
`blocking=True` it force-refreshes `move_done` and waits on its condition;
with a callback it runs the same wait on a background thread and then invokes
the callback; otherwise it just returns. -/
inductive CompletionPlan where
  | blockingWait
  | backgroundWait (callback : Nat)
  | fireAndForget
deriving DecidableEq, Repr

/-- `Motor.moveto(value, blocking, callback)`: the composite remote command
string passed to `Client.run` and the completion behaviour.  (`run` raises
the console text when the reply's error code is non-zero; both paths below
share that through this common definition.) -/
def moveto (mne : String) (value : ℚ) (blocking : Bool) (callback : Option Nat) :
    String × CompletionPlan :=
  ("\x7bget_angles;A[" ++ mne ++ "]=" ++ toString value ++ ";move_em;\x7d\n",
   if blocking then .blockingWait
   else
     match callback with
     | some cb => .backgroundWait cb
     | none => .fireAndForget)

/-- `Motor.move(value, blocking, callback)`: read the current position, add
the delta, and delegate to `moveto`. -/
def move (mne : String) (position : ℚ) (value : ℚ) (blocking : Bool)
    (callback : Option Nat) : String × CompletionPlan :=
  let new_pos := position + value
  moveto mne new_pos blocking callback

/-- C9: for every motor, current position and delta, `move(delta, blocking,
callback)` produces exactly the composite command and completion behaviour of
`moveto(position + delta, blocking, callback)`. -/
theorem claim_C9_move_is_moveto (mne : String) (position : ℚ) (value : ℚ)
    (blocking : Bool) (callback : Option Nat) :
    move mne position value blocking callback =
      moveto mne (position + value) blocking callback := rfl

/-- C10: after any `output/tty` event is appended to any current accumulator
content, the console accumulator holds at most `MAX_SCREEN_PRINT_LEN` (10000)
characters — the truncation to the most recent 10000 characters runs
unconditionally after every append. -/
theorem claim_C10_console_accumulator_bound (sp chunk : List Nat) :
    (handleTty sp chunk).length ≤ MAX_SCREEN_PRINT_LEN := by
  simp only [handleTty]
  split_ifs with h1 h2 h3 <;>
    simp_all [List.length_drop, MAX_SCREEN_PRINT_LEN] <;> omega

end PyCertifSpec
